import Mathlib

/-!
Verification development for the `tpc-graph-exec-rs` node execution engine.

The Rust sources embedded here are `src/lib.rs` (the `connect_nodes!` macro),
`src/node.rs` (the `Node` trait, `NodeInstance`, and the spawned thread's
execution loop), and `src/graph.rs` (the `Graph` handle registry).

Two state machines are used:

* `PairState` models one SPSC connection between a producing instance and a
  consuming instance: the producer side executes the push-retry loop of
  `node.rs` lines 196-211 (push; on `PushError::Full(v)` the returned value is
  bound back to `data`; if the consumer end is abandoned the main loop breaks,
  otherwise the thread yields and retries) and the consumer side executes the
  pop-retry loop of `node.rs` lines 160-173 (pop; on empty, break the main
  loop if the producer end is abandoned, otherwise yield and retry).
  Concurrency is modelled by an explicit interleaving schedule (`List Bool`);
  yielding is a step that leaves the state unchanged.

* `ThreadState` models a single spawned instance's thread start-to-finish
  (`NodeInstance::spawn`, `node.rs` lines 130-239): `on_start`, the
  `'main_loop` with its receive phase, `process` call, send phase, the
  `.expect(..)` panic when output is produced with no output channel, and
  `on_stop` after a `break 'main_loop`.  Wall-clock telemetry accumulation and
  the log statements are side effects with no influence on control flow or
  data; the telemetry percentage arithmetic of lines 215-227 is modelled
  separately by `F32`.
-/

namespace TpcGraphExec

/-! ### Model A: one SPSC connection (producer send loop + consumer receive loop) -/

/-- State of one rtrb SPSC connection together with the two loops driving it.
`buf` is the ring buffer's content in FIFO order (head = oldest); `capacity`
is fixed at connection time (`rtrb::RingBuffer::new(size)`, `lib.rs:9`).
`toSend` is the stream of `node_output` values the producing instance still has
to send; `pending` is the local `data` variable inside the producer's
push-retry loop (`node.rs:196`) when a push has failed and the returned value
is being retried.  `received` collects the values popped by the consumer, in
order.  `prodAlive` / `consAlive` model `rtrb`'s abandonment flags (a half is
abandoned when its owning thread drops it); `consDone` records that the
consumer's main loop has exited. -/
structure PairState (α : Type) where
  capacity : Nat
  buf : List α
  toSend : List α
  pending : Option α
  received : List α
  prodAlive : Bool
  consAlive : Bool
  consDone : Bool
deriving Repr, DecidableEq

/-- One scheduling quantum of the producing side, from `node.rs` lines 196-211:
try `push(data)`; on success take the next output; on `PushError::Full(v)` keep
the returned value `v` in `data` (re-submitted next quantum), unless the
consumer is abandoned, in which case the producer's main loop breaks.  Once all
outputs are sent the producing thread ends and drops its `Producer` half. -/
def producerStep {α : Type} (s : PairState α) : PairState α :=
  if s.prodAlive then
    match s.pending with
    | some x =>
      if s.buf.length < s.capacity then
        { s with buf := s.buf ++ [x], pending := none }
      else if s.consAlive then
        s  -- thread::yield_now(); same returned value retried
      else
        { s with prodAlive := false }  -- break 'main_loop; Producer dropped
    | none =>
      match s.toSend with
      | [] => { s with prodAlive := false }  -- producing thread done; Producer dropped
      | y :: rest =>
        if s.buf.length < s.capacity then
          { s with buf := s.buf ++ [y], toSend := rest }
        else if s.consAlive then
          { s with pending := some y, toSend := rest }  -- Err(Full(y)): data = y
        else
          { s with prodAlive := false }
  else s

/-- One scheduling quantum of the consuming side, from `node.rs` lines 160-173:
try `pop()`; on success the item is delivered; on empty, break the main loop if
the producer half `is_abandoned()`, otherwise `thread::yield_now()` and retry. -/
def consumerStep {α : Type} (s : PairState α) : PairState α :=
  if s.consDone then s
  else
    match s.buf with
    | x :: rest => { s with buf := rest, received := s.received ++ [x] }
    | [] =>
      if s.prodAlive then s  -- queue just empty: yield and retry
      else { s with consDone := true }  -- producer dropped: break 'main_loop

/-- Interleaving: `true` schedules the producer's thread, `false` the consumer's. -/
def pairStep {α : Type} (b : Bool) (s : PairState α) : PairState α :=
  if b then producerStep s else consumerStep s

/-- Run the connection under an explicit interleaving schedule. -/
def pairRun {α : Type} : List Bool → PairState α → PairState α
  | [], s => s
  | b :: σ, s => pairRun σ (pairStep b s)

/-- Fresh connection (`connect_nodes!`), producer about to send `items`. -/
def pairInit {α : Type} (cap : Nat) (items : List α) : PairState α :=
  ⟨cap, [], items, none, [], true, true, false⟩

/-- Connection whose producer was dropped with `items` still buffered. -/
def drainInit {α : Type} (cap : Nat) (items : List α) : PairState α :=
  ⟨cap, items, [], none, [], false, true, false⟩

/-- Inductive invariant of one connection whose consumer stays alive: the items
already received, the buffered items, the value held by the producer's retry
loop and the items still to be sent always concatenate to the original stream
(hence no loss, no duplication, no reordering); a dropped producer holds no
undelivered value; and the consumer's loop only exits once the buffer is
drained and the producer is gone. -/
def PairInv {α : Type} (items : List α) (s : PairState α) : Prop :=
  s.received ++ s.buf ++ s.pending.toList ++ s.toSend = items
  ∧ (s.prodAlive = false → s.toSend = [] ∧ s.pending = none)
  ∧ (s.consDone = true → s.buf = [] ∧ s.prodAlive = false)
  ∧ s.consAlive = true

theorem pairInv_step {α : Type} {items : List α} {s : PairState α} (b : Bool)
    (h : PairInv items s) : PairInv items (pairStep b s) := by
  obtain ⟨h1, h2, h3, h4⟩ := h
  obtain ⟨cap, buf, toSend, pending, received, pa, ca, cd⟩ := s
  simp only at h1 h2 h3 h4
  subst h4
  cases b <;> cases pa <;> cases cd <;> cases pending <;> cases buf <;> cases toSend <;>
      simp_all [PairInv, pairStep, producerStep, consumerStep, List.append_assoc] <;>
      (try split_ifs) <;> (try simp_all [List.append_assoc])

theorem pairInv_run {α : Type} {items : List α} (σ : List Bool) {s : PairState α}
    (h : PairInv items s) : PairInv items (pairRun σ s) := by
  induction σ generalizing s with
  | nil => exact h
  | cons b σ ih => exact ih (pairInv_step b h)

theorem pairInv_init {α : Type} (cap : Nat) (items : List α) :
    PairInv items (pairInit cap items) := by
  simp [PairInv, pairInit]

theorem pairInv_drainInit {α : Type} (cap : Nat) (items : List α) :
    PairInv items (drainInit cap items) := by
  simp [PairInv, drainInit]

/-- Consumer-only drain: with the producer dropped and `items` buffered,
`items.length + 1` consumer quanta pop every buffered item in order and then
observe abandonment. -/
theorem consumer_drain {α : Type} :
    ∀ (items : List α) (s : PairState α), s.buf = items → s.prodAlive = false →
      s.consDone = false →
      pairRun (List.replicate (items.length + 1) false) s =
        { s with buf := [], received := s.received ++ items, consDone := true } := by
  intro items
  induction items with
  | nil =>
    intro s hb hp hd
    obtain ⟨cap, buf, toSend, pending, received, pa, ca, cd⟩ := s
    simp only at hb hp hd
    subst hb; subst hp; subst hd
    simp [pairRun, pairStep, consumerStep]
  | cons x rest ih =>
    intro s hb hp hd
    obtain ⟨cap, buf, toSend, pending, received, pa, ca, cd⟩ := s
    simp only at hb hp hd
    subst hb; subst hp; subst hd
    have step1 :
        pairRun (List.replicate (rest.length + 1 + 1) false)
          (⟨cap, x :: rest, toSend, pending, received, false, ca, false⟩ : PairState α) =
        pairRun (List.replicate (rest.length + 1) false)
          (⟨cap, rest, toSend, pending, received ++ [x], false, ca, false⟩ : PairState α) := by
      simp [List.replicate_succ, pairRun, pairStep, consumerStep]
    simp only [List.length_cons, step1]
    rw [ih _ rfl rfl rfl]
    simp [List.append_assoc]

/-! ### Model B: one spawned instance's thread (`NodeInstance::spawn`, node.rs:130-239) -/

/-- Consumer half of an rtrb SPSC queue as seen by the owning thread:
buffered items in FIFO order plus the peer's abandonment flag
(`Consumer::is_abandoned`). -/
structure SpscIn (I : Type) where
  buf : List I
  producerAlive : Bool
deriving Repr, DecidableEq

/-- Producer half of an rtrb SPSC queue as seen by the owning thread:
capacity fixed at creation, buffered items, and the peer's abandonment flag
(`Producer::is_abandoned`). -/
structure SpscOut (O : Type) where
  capacity : Nat
  buf : List O
  consumerAlive : Bool
deriving Repr, DecidableEq

/-- The `Node` trait (node.rs:52-64): `process` plus the two lifecycle hooks,
with the node's own state `S` threaded explicitly (Rust's `&mut self`), and the
`DataSize` bound on the input type (node.rs:19-21, used at node.rs:175). The
Rust default bodies of `on_start`/`on_stop` are the identity. -/
structure NodeImpl (I O S : Type) where
  process : S → Option I → Option O × S
  on_start : S → S
  on_stop : S → S
  data_size : I → Nat

/-- Where the spawned thread's control currently sits.  `sending data` is the
push-retry loop of node.rs:196-211 with `data` its local variable; `finished`
means the `'main_loop` was broken and `on_stop` has run; `panicked` means the
`.expect(..)` at node.rs:190-192 fired and the thread unwound (so `on_stop`
never runs). -/
inductive ExitReason
  | recvClosed
  | sendClosed
deriving Repr, DecidableEq

inductive Phase (O : Type)
  | startup
  | loopHead
  | receiving
  | sending (data : O)
  | finished (r : ExitReason)
  | panicked
deriving Repr, DecidableEq

/-- The spawned thread's full state: the node's state, the two optional queue
halves (`input_rx`, `output_tx`), the control phase, and counters recording
how often `on_start` / `on_stop` / `process` have run plus
`bytes_processed_cntr` (node.rs:175). -/
structure ThreadState (I O S : Type) where
  st : S
  input_rx : Option (SpscIn I)
  output_tx : Option (SpscOut O)
  phase : Phase O
  startCount : Nat
  stopCount : Nat
  procCalls : Nat
  bytes_processed_cntr : Nat
deriving Repr, DecidableEq

/-- Handling of `node_output` (node.rs:186-192): `None` continues the loop;
`Some` with no output channel hits the `.expect(..)` and panics the thread;
otherwise the push-retry loop is entered with `data = tx_data`. -/
def handleOutput {I O S : Type} (s : ThreadState I O S) (out : Option O) :
    ThreadState I O S :=
  match out with
  | none => { s with phase := .loopHead }
  | some v =>
    match s.output_tx with
    | none => { s with phase := .panicked }
    | some _ => { s with phase := .sending v }

/-- One scheduling quantum of the spawned thread, following node.rs:143-239.
CPU pinning and thread-priority elevation (node.rs:131-141) are best-effort
side effects with no influence on the state and are not modelled; the same
holds for log emission and the wall-clock telemetry block (node.rs:215-234),
whose percentage arithmetic is modelled separately below. -/
def nodeStep {I O S : Type} (impl : NodeImpl I O S) (s : ThreadState I O S) :
    ThreadState I O S :=
  match s.phase with
  | .startup =>
    -- node.rs:144: self.node.on_start() runs once before the loop
    { s with st := impl.on_start s.st, startCount := s.startCount + 1, phase := .loopHead }
  | .loopHead =>
    match s.input_rx with
    | some _ => { s with phase := .receiving }
    | none =>
      -- node.rs:180-184: no input channel, call process(None) directly
      let r := impl.process s.st none
      handleOutput { s with st := r.2, procCalls := s.procCalls + 1 } r.1
  | .receiving =>
    match s.input_rx with
    | none => s  -- unreachable: receiving is entered only with an input channel
    | some q =>
      match q.buf with
      | x :: rest =>
        -- node.rs:161-162, 175-177: pop succeeded; count bytes; process(Some(x))
        let r := impl.process s.st (some x)
        handleOutput
          { s with st := r.2, input_rx := some { q with buf := rest },
                   procCalls := s.procCalls + 1,
                   bytes_processed_cntr := s.bytes_processed_cntr + impl.data_size x } r.1
      | [] =>
        if q.producerAlive then s  -- node.rs:170: yield_now(), retry pop
        else
          -- node.rs:165-167: is_abandoned → break 'main_loop; then node.rs:238 on_stop
          { s with phase := .finished .recvClosed, st := impl.on_stop s.st,
                   stopCount := s.stopCount + 1 }
  | .sending v =>
    match s.output_tx with
    | none => s  -- unreachable: sending is entered only with an output channel
    | some q =>
      if q.buf.length < q.capacity then
        { s with output_tx := some { q with buf := q.buf ++ [v] }, phase := .loopHead }
      else if q.consumerAlive then s  -- node.rs:200-208: Full(v) returned, data = v, yield
      else
        -- node.rs:203-205: is_abandoned → break 'main_loop; then node.rs:238 on_stop
        { s with phase := .finished .sendClosed, st := impl.on_stop s.st,
                 stopCount := s.stopCount + 1 }
  | .finished _ => s
  | .panicked => s

/-- Iterate the thread for `n` quanta. -/
def nodeRun {I O S : Type} (impl : NodeImpl I O S) : Nat → ThreadState I O S → ThreadState I O S
  | 0, s => s
  | n + 1, s => nodeRun impl n (nodeStep impl s)

/-- State of the thread right after `thread::Builder::spawn` hands it the moved
`NodeInstance` fields (node.rs:130). -/
def initThread {I O S : Type} (st0 : S) (inq : Option (SpscIn I)) (outq : Option (SpscOut O)) :
    ThreadState I O S :=
  ⟨st0, inq, outq, .startup, 0, 0, 0, 0⟩

/-- The output value, if any, that `process` produces during the given quantum
(the value whose destination node.rs:188-192 then decides). -/
def stepOutput {I O S : Type} (impl : NodeImpl I O S) (s : ThreadState I O S) : Option O :=
  match s.phase with
  | .loopHead =>
    match s.input_rx with
    | none => (impl.process s.st none).1
    | some _ => none
  | .receiving =>
    match s.input_rx with
    | some q =>
      match q.buf with
      | x :: _ => (impl.process s.st (some x)).1
      | [] => none
    | none => none
  | _ => none

def Phase.isFinished {O : Type} : Phase O → Bool
  | .finished _ => true
  | _ => false

theorem nodeRun_add {I O S : Type} (impl : NodeImpl I O S) (m n : Nat) (s : ThreadState I O S) :
    nodeRun impl (m + n) s = nodeRun impl n (nodeRun impl m s) := by
  induction m generalizing s with
  | zero => rw [Nat.zero_add]; rfl
  | succ m ih =>
    have : m + 1 + n = (m + n) + 1 := by omega
    rw [this]
    show nodeRun impl (m + n) (nodeStep impl s) = _
    rw [ih]
    rfl

theorem panicked_absorb {I O S : Type} (impl : NodeImpl I O S) (k : Nat)
    {s : ThreadState I O S} (h : s.phase = .panicked) : nodeRun impl k s = s := by
  induction k with
  | zero => rfl
  | succ k ih =>
    show nodeRun impl k (nodeStep impl s) = s
    have hstep : nodeStep impl s = s := by
      unfold nodeStep
      rw [h]
    rw [hstep, ih]

/-- A consuming instance (one whose `process` never emits) whose producer was
dropped with `items` buffered pops and processes every buffered item, then
observes abandonment and exits with `recvClosed`. -/
theorem sink_drain {I O S : Type} (impl : NodeImpl I O S)
    (hsink : ∀ st x, (impl.process st (some x)).1 = none) :
    ∀ (items : List I) (s : ThreadState I O S),
      s.phase = .loopHead → s.input_rx = some ⟨items, false⟩ →
      (nodeRun impl (2 * items.length + 2) s).phase = .finished .recvClosed
      ∧ (nodeRun impl (2 * items.length + 2) s).procCalls = s.procCalls + items.length := by
  intro items
  induction items with
  | nil =>
    intro s hp hi
    obtain ⟨st, irx, otx, ph, sc, stc, pc, bc⟩ := s
    simp only at hp hi
    subst hp; subst hi
    simp [nodeRun, nodeStep]
  | cons x rest ih =>
    intro s hp hi
    obtain ⟨st, irx, otx, ph, sc, stc, pc, bc⟩ := s
    simp only at hp hi
    subst hp; subst hi
    have h2 : 2 * (x :: rest).length + 2 = 2 + (2 * rest.length + 2) := by
      simp [List.length_cons]; omega
    rw [h2, nodeRun_add]
    have hstep2 :
        nodeRun impl 2
          (⟨st, some ⟨x :: rest, false⟩, otx, .loopHead, sc, stc, pc, bc⟩ : ThreadState I O S) =
        ⟨(impl.process st (some x)).2, some ⟨rest, false⟩, otx, .loopHead, sc, stc, pc + 1,
          bc + impl.data_size x⟩ := by
      simp [nodeRun, nodeStep, handleOutput, hsink]
    rw [hstep2]
    have hrec := ih ⟨(impl.process st (some x)).2, some ⟨rest, false⟩, otx, .loopHead, sc, stc,
      pc + 1, bc + impl.data_size x⟩ rfl rfl
    refine ⟨hrec.1, ?_⟩
    rw [hrec.2]
    simp [List.length_cons]
    omega

/-- Lifecycle invariant: `on_start` has run exactly once as soon as the thread
leaves its startup quantum (and never again), and `on_stop` has run exactly
once precisely when the main loop has been broken (`finished`) — in particular
never after the configuration panic. -/
def LifecycleInv {I O S : Type} (s : ThreadState I O S) : Prop :=
  (s.phase = .startup → s.startCount = 0 ∧ s.procCalls = 0)
  ∧ (s.phase ≠ .startup → s.startCount = 1)
  ∧ s.stopCount = (if s.phase.isFinished then 1 else 0)

theorem lifecycleInv_step {I O S : Type} (impl : NodeImpl I O S) {s : ThreadState I O S}
    (h : LifecycleInv s) : LifecycleInv (nodeStep impl s) := by
  obtain ⟨h1, h2, h3⟩ := h
  obtain ⟨st, irx, otx, ph, sc, stc, pc, bc⟩ := s
  simp only at h1 h2 h3
  cases ph
  case startup => simp_all [LifecycleInv, nodeStep, Phase.isFinished]
  case loopHead =>
    cases irx with
    | some q => simp_all [LifecycleInv, nodeStep, Phase.isFinished]
    | none =>
      rcases ho : (impl.process st none).1 with _ | v
      · simp_all [LifecycleInv, nodeStep, handleOutput, Phase.isFinished]
      · cases otx <;> simp_all [LifecycleInv, nodeStep, handleOutput, Phase.isFinished]
  case receiving =>
    cases irx with
    | none => simp_all [LifecycleInv, nodeStep, Phase.isFinished]
    | some q =>
      obtain ⟨qb, qa⟩ := q
      cases qb with
      | nil => cases qa <;> simp_all [LifecycleInv, nodeStep, Phase.isFinished]
      | cons x rest =>
        rcases ho : (impl.process st (some x)).1 with _ | v
        · simp_all [LifecycleInv, nodeStep, handleOutput, Phase.isFinished]
        · cases otx <;> simp_all [LifecycleInv, nodeStep, handleOutput, Phase.isFinished]
  case sending v =>
    cases otx with
    | none => simp_all [LifecycleInv, nodeStep, Phase.isFinished]
    | some q =>
      obtain ⟨qc, qb, qa⟩ := q
      by_cases hlt : qb.length < qc
      · simp_all [LifecycleInv, nodeStep, Phase.isFinished]
      · cases qa <;> simp_all [LifecycleInv, nodeStep, Phase.isFinished, if_neg hlt]
  case finished r => simp_all [LifecycleInv, nodeStep, Phase.isFinished]
  case panicked => simp_all [LifecycleInv, nodeStep, Phase.isFinished]

theorem lifecycleInv_run {I O S : Type} (impl : NodeImpl I O S) (n : Nat)
    {s : ThreadState I O S} (h : LifecycleInv s) : LifecycleInv (nodeRun impl n s) := by
  induction n generalizing s with
  | zero => exact h
  | succ n ih => exact ih (lifecycleInv_step impl h)

theorem lifecycleInv_init {I O S : Type} (st0 : S) (inq : Option (SpscIn I))
    (outq : Option (SpscOut O)) : LifecycleInv (initThread st0 inq outq) := by
  simp [LifecycleInv, initThread, Phase.isFinished]

/-! ### Concrete instances used by witnesses -/

/-- A node that never emits (`process` returns `None` for every input). -/
def sinkImpl : NodeImpl Nat Nat Nat := ⟨fun st _ => (none, st), id, id, fun _ => 0⟩

/-- A node that emits `some 42` on every call. -/
def prodImpl : NodeImpl Nat Nat Nat := ⟨fun st _ => (some 42, st), id, id, fun _ => 0⟩

/-- A thread at its loop head with neither queue connected. -/
def s7 : ThreadState Nat Nat Nat := ⟨0, none, none, .loopHead, 1, 0, 0, 0⟩

/-- A thread in its receive loop over an empty queue whose producer is gone. -/
def s6 : ThreadState Nat Nat Nat := ⟨0, some ⟨[], false⟩, none, .receiving, 1, 0, 0, 0⟩

/-- Schedule for the delayed-consumer scenario: 10 producer-only quanta (the
consumer has not started), then alternation until everything is delivered. -/
def C1sched : List Bool :=
  List.replicate 10 true ++ (List.replicate 14 [false, true]).flatten ++ [true, false, false]

/-! ### Claim theorems -/

/-- C1: for every connected producer/consumer pair with both ends alive, under
every interleaving the consumer's received list is a prefix of the sent stream
(FIFO order, at most once, no duplication — the push-retry loop re-submits the
exact value returned by a failed push), and whenever the consumer's loop has
run to completion the received list equals the whole sent stream (no silent
loss). -/
theorem C1_fifo_exact_delivery {α : Type} (cap : Nat) (items : List α) (σ : List Bool) :
    (∃ rest, (pairRun σ (pairInit cap items)).received ++ rest = items)
    ∧ ((pairRun σ (pairInit cap items)).consDone = true →
        (pairRun σ (pairInit cap items)).received = items) := by
  obtain ⟨h1, h2, h3, h4⟩ := pairInv_run σ (pairInv_init cap items)
  rw [List.append_assoc, List.append_assoc] at h1
  refine ⟨⟨_, h1⟩, ?_⟩
  intro hd
  obtain ⟨hb, hp⟩ := h3 hd
  obtain ⟨hts, hpd⟩ := h2 hp
  rw [hb, hts, hpd] at h1
  simpa using h1

set_option maxRecDepth 8000 in
/-- C1 witness: capacity 3, the producer sends 3+5 = 8 items while the consumer
is delayed for 10 quanta; all 8 items are delivered, exactly once, in order. -/
theorem C1_witness :
    (pairRun C1sched (pairInit 3 [0, 1, 2, 3, 4, 5, 6, 7])).received = [0, 1, 2, 3, 4, 5, 6, 7] :=
  (C1_fifo_exact_delivery 3 [0, 1, 2, 3, 4, 5, 6, 7] C1sched).2 (by decide)

/-- C4: if the producer is dropped with `m` items still buffered, a consumer
given `m + 1` quanta pops all `m` items (in order) and only then observes
closure; under every interleaving the consumer's loop exits only with an empty
buffer, and the received list is always a prefix of the buffered items (no
partial or garbage item).  At the instance level, a consuming node pops and
passes each of the `m` buffered items to `process` and then exits with
`recvClosed`. -/
theorem C4_closed_channel_drain {α : Type} (cap : Nat) (items : List α) :
    ((pairRun (List.replicate (items.length + 1) false) (drainInit cap items)).received = items
      ∧ (pairRun (List.replicate (items.length + 1) false) (drainInit cap items)).consDone = true)
    ∧ (∀ σ : List Bool, (pairRun σ (drainInit cap items)).consDone = true →
        (pairRun σ (drainInit cap items)).buf = [])
    ∧ (∀ σ : List Bool, ∃ rest, (pairRun σ (drainInit cap items)).received ++ rest = items)
    ∧ (∀ (O S : Type) (st0 : S) (impl : NodeImpl α O S),
        (∀ st x, (impl.process st (some x)).1 = none) →
        (nodeRun impl (2 * items.length + 3) (initThread st0 (some ⟨items, false⟩) none)).procCalls
            = items.length
        ∧ (nodeRun impl (2 * items.length + 3) (initThread st0 (some ⟨items, false⟩) none)).phase
            = Phase.finished ExitReason.recvClosed) := by
  refine ⟨?_, ?_, ?_, ?_⟩
  · rw [consumer_drain items (drainInit cap items) rfl rfl rfl]
    simp [drainInit]
  · intro σ hd
    exact ((pairInv_run σ (pairInv_drainInit cap items)).2.2.1 hd).1
  · intro σ
    have h1 := (pairInv_run σ (pairInv_drainInit cap items)).1
    rw [List.append_assoc, List.append_assoc] at h1
    exact ⟨_, h1⟩
  · intro O S st0 impl hsink
    have h1 : nodeRun impl 1 (initThread st0 (some ⟨items, false⟩) none) =
        (⟨impl.on_start st0, some ⟨items, false⟩, none, .loopHead, 1, 0, 0, 0⟩ :
          ThreadState α O S) := by
      simp [nodeRun, nodeStep, initThread]
    have h2 : 2 * items.length + 3 = 1 + (2 * items.length + 2) := by omega
    rw [h2, nodeRun_add, h1]
    have h := sink_drain impl hsink items
      ⟨impl.on_start st0, some ⟨items, false⟩, none, .loopHead, 1, 0, 0, 0⟩ rfl rfl
    refine ⟨?_, h.1⟩
    rw [h.2]
    simp

/-- C4 witness: producer dropped with two buffered items; the consumer pops
both before observing closure, and the instance-level run calls `process`
twice then exits. -/
theorem C4_witness :
    (pairRun (List.replicate 3 false) (drainInit 2 [5, 6])).received = [5, 6]
    ∧ (nodeRun sinkImpl 7 (initThread 0 (some ⟨[5, 6], false⟩) none)).procCalls = 2 :=
  ⟨(C4_closed_channel_drain 2 [5, 6]).1.1,
   ((C4_closed_channel_drain 2 [5, 6]).2.2.2 Nat Nat 0 sinkImpl (fun _ _ => rfl)).1⟩

/-- C7: an instance with no input connection calls `process(None)` each
iteration, and a `None` return does not terminate it: the loop returns to its
head, the process-call count increments, the node state advances by exactly
that `process` call, no send is attempted, and `on_stop` does not run. -/
theorem C7_source_none_continues {I O S : Type} (impl : NodeImpl I O S) (s : ThreadState I O S)
    (hph : s.phase = .loopHead) (hin : s.input_rx = none)
    (hnone : (impl.process s.st none).1 = none) :
    (nodeStep impl s).phase = .loopHead
    ∧ (nodeStep impl s).procCalls = s.procCalls + 1
    ∧ (nodeStep impl s).st = (impl.process s.st none).2
    ∧ (nodeStep impl s).output_tx = s.output_tx
    ∧ (nodeStep impl s).input_rx = none
    ∧ (nodeStep impl s).stopCount = s.stopCount := by
  simp [nodeStep, hph, hin, hnone, handleOutput]

/-- C7 witness: a source whose `process` returns `None` keeps looping. -/
theorem C7_witness :
    (nodeStep sinkImpl s7).phase = Phase.loopHead ∧ (nodeStep sinkImpl s7).procCalls = 1 :=
  ⟨(C7_source_none_continues sinkImpl s7 rfl rfl rfl).1,
   (C7_source_none_continues sinkImpl s7 rfl rfl rfl).2.1⟩

/-- C2: whenever `process` produces `Some` output in a quantum of an instance
with no output connection, the thread panics (the `.expect(..)` of
node.rs:190-192): the value is not silently dropped into a continuing loop,
`on_stop` never runs, and the panicked state is absorbing — the failure is
unrecoverable, not a mere loop exit. -/
theorem C2_no_output_connection_panics {I O S : Type} (impl : NodeImpl I O S)
    (s : ThreadState I O S) (hout : s.output_tx = none)
    (hprod : (stepOutput impl s).isSome = true) :
    (nodeStep impl s).phase = .panicked
    ∧ (nodeStep impl s).stopCount = s.stopCount
    ∧ ∀ k, nodeRun impl k (nodeStep impl s) = nodeStep impl s := by
  have hpan : (nodeStep impl s).phase = .panicked
      ∧ (nodeStep impl s).stopCount = s.stopCount := by
    obtain ⟨st, irx, otx, ph, sc, stc, pc, bc⟩ := s
    simp only at hout
    subst hout
    cases ph
    case startup => simp [stepOutput] at hprod
    case loopHead =>
      cases irx with
      | some q => simp [stepOutput] at hprod
      | none =>
        rcases ho : (impl.process st none).1 with _ | v
        · simp [stepOutput, ho] at hprod
        · simp [nodeStep, handleOutput, ho]
    case receiving =>
      cases irx with
      | none => simp [stepOutput] at hprod
      | some q =>
        obtain ⟨qb, qa⟩ := q
        cases qb with
        | nil => simp [stepOutput] at hprod
        | cons x rest =>
          rcases ho : (impl.process st (some x)).1 with _ | v
          · simp [stepOutput, ho] at hprod
          · simp [nodeStep, handleOutput, ho]
    case sending v => simp [stepOutput] at hprod
    case finished r => simp [stepOutput] at hprod
    case panicked => simp [stepOutput] at hprod
  exact ⟨hpan.1, hpan.2, fun k => panicked_absorb impl k hpan.1⟩

/-- C2 witness: a source with no output connection whose `process` emits. -/
theorem C2_witness : (nodeStep prodImpl s7).phase = Phase.panicked :=
  (C2_no_output_connection_panics prodImpl s7 rfl rfl).1

/-- C8: on every execution path, `on_start` has run exactly once by the time
any `process` call has happened (and never more than once), and `on_stop` has
run exactly once precisely when the main loop has exited — the two hooks
bracket the active loop. -/
theorem C8_lifecycle_hooks {I O S : Type} (impl : NodeImpl I O S) (st0 : S)
    (inq : Option (SpscIn I)) (outq : Option (SpscOut O)) (n : Nat) :
    (0 < (nodeRun impl n (initThread st0 inq outq)).procCalls →
      (nodeRun impl n (initThread st0 inq outq)).startCount = 1)
    ∧ (nodeRun impl n (initThread st0 inq outq)).startCount ≤ 1
    ∧ (nodeRun impl n (initThread st0 inq outq)).stopCount
        = (if (nodeRun impl n (initThread st0 inq outq)).phase.isFinished then 1 else 0) := by
  obtain ⟨h1, h2, h3⟩ := lifecycleInv_run impl n (lifecycleInv_init st0 inq outq)
  by_cases hp : (nodeRun impl n (initThread st0 inq outq)).phase = .startup
  · obtain ⟨hs, hc⟩ := h1 hp
    exact ⟨fun hpc => absurd hc (by omega), by omega, h3⟩
  · have hs := h2 hp
    exact ⟨fun _ => hs, by omega, h3⟩

/-- C8 witness: a consuming node over one buffered item from a dropped
producer starts once, processes once, and stops once. -/
theorem C8_witness :
    (nodeRun sinkImpl 5 (initThread 0 (some ⟨[7], false⟩) none)).startCount = 1
    ∧ (nodeRun sinkImpl 5 (initThread 0 (some ⟨[7], false⟩) none)).stopCount = 1 := by
  have h := C8_lifecycle_hooks sinkImpl 0 (some ⟨[7], false⟩) none 5
  refine ⟨h.1 (by decide), ?_⟩
  rw [h.2.2]
  decide

/-- C6: the spawned loop has no timeout and listens to no external signal — in
the step function the loop can only end by `break 'main_loop` on observing an
abandoned peer (empty input with dropped producer, or full output with dropped
consumer) or by the configuration panic (output produced with no output
connection); every quantum ending in `finished`/`panicked` is characterized by
exactly those conditions. -/
theorem C6_exit_characterization {I O S : Type} (impl : NodeImpl I O S) (s : ThreadState I O S) :
    ((nodeStep impl s).phase = .finished .recvClosed →
      s.phase = .finished .recvClosed
      ∨ (s.phase = .receiving
          ∧ ∃ q, s.input_rx = some q ∧ q.buf = [] ∧ q.producerAlive = false))
    ∧ ((nodeStep impl s).phase = .finished .sendClosed →
      s.phase = .finished .sendClosed
      ∨ (∃ v q, s.phase = .sending v ∧ s.output_tx = some q
          ∧ ¬ q.buf.length < q.capacity ∧ q.consumerAlive = false))
    ∧ ((nodeStep impl s).phase = .panicked →
      s.phase = .panicked ∨ (s.output_tx = none ∧ (stepOutput impl s).isSome = true)) := by
  obtain ⟨st, irx, otx, ph, sc, stc, pc, bc⟩ := s
  cases ph
  case startup => simp [nodeStep]
  case loopHead =>
    cases irx with
    | some q => simp [nodeStep]
    | none =>
      rcases ho : (impl.process st none).1 with _ | v
      · simp [nodeStep, handleOutput, ho]
      · cases otx with
        | none => simp [nodeStep, handleOutput, stepOutput, ho]
        | some q => simp [nodeStep, handleOutput, ho]
  case receiving =>
    cases irx with
    | none => simp [nodeStep]
    | some q =>
      obtain ⟨qb, qa⟩ := q
      cases qb with
      | nil =>
        cases qa
        · refine ⟨fun _ => Or.inr ⟨rfl, ⟨[], false⟩, rfl, rfl, rfl⟩, ?_, ?_⟩ <;> simp [nodeStep]
        · simp [nodeStep]
      | cons x rest =>
        rcases ho : (impl.process st (some x)).1 with _ | v
        · simp [nodeStep, handleOutput, ho]
        · cases otx with
          | none => simp [nodeStep, handleOutput, stepOutput, ho]
          | some q2 => simp [nodeStep, handleOutput, ho]
  case sending v =>
    cases otx with
    | none => simp [nodeStep]
    | some q =>
      obtain ⟨qc, qb, qa⟩ := q
      by_cases hlt : qb.length < qc
      · simp [nodeStep, hlt]
      · cases qa
        · refine ⟨?_, fun _ => Or.inr ⟨v, ⟨qc, qb, false⟩, rfl, rfl, hlt, rfl⟩, ?_⟩ <;>
            simp [nodeStep, if_neg hlt]
        · simp [nodeStep, if_neg hlt]
  case finished r => cases r <;> simp [nodeStep]
  case panicked => simp [nodeStep]

/-- C6 witness: a receive loop over an empty queue whose producer is gone exits
with `recvClosed`, and the characterization attributes the exit to peer
disappearance. -/
theorem C6_witness :
    s6.phase = Phase.finished ExitReason.recvClosed
    ∨ (s6.phase = Phase.receiving
        ∧ ∃ q, s6.input_rx = some q ∧ q.buf = [] ∧ q.producerAlive = false) :=
  (C6_exit_characterization sinkImpl s6).1 (by decide)

/-! ### NodeInstance construction surface (node.rs:67-106, lib.rs:1-13) -/

/-- `NodeInstance` (node.rs:67-80).  The Rust field `node: Box<dyn Node>` holds
both the node's behaviour and its mutable state; these are split here into
`node` (the function table) and `node_st` (the state threaded through it). -/
structure NodeInstance (I O S : Type) where
  input_rx : Option (SpscIn I)
  output_tx : Option (SpscOut O)
  name : String
  node : NodeImpl I O S
  node_st : S
  cpu_core : Option Nat
  bytes_processed_cntr : Nat

/-- `NodeInstance::new` (node.rs:84-96). -/
def NodeInstance.new {I O S : Type} (name : String) (node : NodeImpl I O S) (st0 : S)
    (cpu_core : Option Nat) : NodeInstance I O S :=
  ⟨none, none, name, node, st0, cpu_core, 0⟩

/-- `NodeInstance::set_receiver` (node.rs:99-101): `self.input_rx = Some(rx)`. -/
def NodeInstance.set_receiver {I O S : Type} (self : NodeInstance I O S) (rx : SpscIn I) :
    NodeInstance I O S :=
  { self with input_rx := some rx }

/-- `NodeInstance::set_sender` (node.rs:104-106): `self.output_tx = Some(tx)`. -/
def NodeInstance.set_sender {I O S : Type} (self : NodeInstance I O S) (tx : SpscOut O) :
    NodeInstance I O S :=
  { self with output_tx := some tx }

/-- `rtrb::RingBuffer::new(size)` as invoked at lib.rs:9: a fresh bounded queue
returning the producer and consumer halves (each half's view; the shared
dynamics of the two halves is `PairState` above). -/
def RingBuffer.new (α : Type) (size : Nat) : SpscOut α × SpscIn α :=
  (⟨size, [], true⟩, ⟨[], true⟩)

/-- The `connect_nodes!` macro (lib.rs:6-13): create one ring buffer of the
given capacity and attach its halves.  The capacity is the only connection-time
parameter. -/
def connect_nodes {I O O2 S S2 : Type} (txn : NodeInstance I O S) (rxn : NodeInstance O O2 S2)
    (size : Nat) : NodeInstance I O S × NodeInstance O O2 S2 :=
  (txn.set_sender (RingBuffer.new O size).1, rxn.set_receiver (RingBuffer.new O size).2)

/-! ### Backpressure discipline actually implemented (for C3) -/

/-- What a full/empty queue makes the calling thread do while the peer is
alive: `suspend` is OS-scheduler parking (the blocking policy described by the
spec); `yieldRetry` is `thread::yield_now()` followed by a retry. -/
inductive WaitAction
  | suspend
  | yieldRetry
deriving Repr, DecidableEq

/-- node.rs:160-172: the only receive path in the engine; on `pop()` failing
with a live producer the code executes `thread::yield_now()` and retries. -/
def recvEmptyAction : WaitAction := .yieldRetry

/-- node.rs:196-210: the only send path in the engine; on `push()` returning
`Full` with a live consumer the code executes `thread::yield_now()` and
retries. -/
def sendFullAction : WaitAction := .yieldRetry

/-- The wait discipline a connection obtains as a function of everything
selectable when it is established — `connect_nodes!` takes only a capacity, and
the spawn loop's receive/send paths are fixed. -/
def connectionPolicy (_size : Nat) : WaitAction × WaitAction :=
  (recvEmptyAction, sendFullAction)

/-- C3 counterexample: no connection-time parameter selects a blocking
(suspending) backpressure policy — the claim that a blocking policy and a
spin-yield policy are both available behind the Queue interface, chosen by the
parameter passed at connection time, is false: the connection surface is a bare
capacity and both wait paths are spin-yield. -/
theorem C3_counterexample :
    ¬ ∃ size : Nat, (connectionPolicy size).1 = WaitAction.suspend
        ∨ (connectionPolicy size).2 = WaitAction.suspend := by
  rintro ⟨size, h | h⟩ <;>
    simp [connectionPolicy, recvEmptyAction, sendFullAction] at h

/-- C3 (amended): the queue layer offers exactly one backpressure policy,
non-blocking spin-yield: for every capacity the connection's receive and send
wait disciplines are yield-and-retry; a full push with a live consumer and an
empty pop with a live producer leave the state unchanged (a pure retry
quantum), with peer closure checked by the explicit abandonment flag. -/
theorem C3_single_spin_yield_policy :
    (∀ size : Nat, connectionPolicy size = (WaitAction.yieldRetry, WaitAction.yieldRetry))
    ∧ (∀ (α : Type) (s : PairState α) (x : α), s.prodAlive = true → s.pending = some x →
        ¬ s.buf.length < s.capacity → s.consAlive = true → producerStep s = s)
    ∧ (∀ (α : Type) (s : PairState α), s.consDone = false → s.buf = [] →
        s.prodAlive = true → consumerStep s = s) := by
  refine ⟨fun _ => rfl, ?_, ?_⟩
  · intro α s x h1 h2 h3 h4
    simp [producerStep, h1, h2, h4, if_neg h3]
  · intro α s h1 h2 h3
    simp [consumerStep, h1, h2, h3]

/-- C3 witness: a concrete full queue with a live consumer — the producer's
quantum is a pure spin-yield retry. -/
theorem C3_witness :
    producerStep (⟨1, [9], [], some 4, [], true, true, false⟩ : PairState Nat) =
      (⟨1, [9], [], some 4, [], true, true, false⟩ : PairState Nat) :=
  C3_single_spin_yield_policy.2.1 Nat _ 4 rfl rfl (by decide) rfl

/-! ### Graph and NodeHandle (graph.rs; C5) -/

/-- How a node's thread ended: normally, or by an unwinding panic carrying its
payload message. -/
inductive ThreadOutcome
  | completed
  | panicked (msg : String)
deriving Repr, DecidableEq

/-- Modelled from the spec: `graph.rs:1` imports `crate::node::NodeHandle`, but
`NodeHandle` is declared nowhere under `src/` (node.rs does not define it and
lib.rs does not even list a `graph` module).  Per the spec (§4.4, §7
NodeThreadPanic), a handle is the joinable handle of one spawned node thread;
it records how that thread ended. -/
structure NodeHandle where
  outcome : ThreadOutcome
deriving Repr, DecidableEq

/-- Modelled from the spec: joining a node's handle surfaces a panic from that
thread to the joiner ("propagated, not swallowed" — spec §4.4/§7); modelled as
`Except`, where `error` is the re-raised panic unwinding out of `join`. -/
def NodeHandle.join (h : NodeHandle) : Except String Unit :=
  match h.outcome with
  | .completed => .ok ()
  | .panicked msg => .error msg

/-- `Graph` (graph.rs:4-6): a registry of node handles. -/
structure Graph where
  handles : List NodeHandle
deriving Repr, DecidableEq

/-- `Graph::new` (graph.rs:9-13). -/
def Graph.new : Graph := ⟨[]⟩

/-- `Graph::add_handle` (graph.rs:15-17): appends in registration order. -/
def Graph.add_handle (g : Graph) (h : NodeHandle) : Graph := ⟨g.handles ++ [h]⟩

/-- The loop body of `Graph::wait` (graph.rs:20-22): join each handle in order;
a panic re-raised by a join unwinds past the remaining iterations. -/
def joinAll : List NodeHandle → Except String Unit
  | [] => .ok ()
  | h :: rest =>
    match h.join with
    | .ok _ => joinAll rest
    | .error m => .error m

/-- `Graph::wait` (graph.rs:19-23). -/
def Graph.wait (g : Graph) : Except String Unit := joinAll g.handles

theorem joinAll_ok_iff (hs : List NodeHandle) :
    joinAll hs = Except.ok () ↔ ∀ h ∈ hs, h.outcome = ThreadOutcome.completed := by
  induction hs with
  | nil => simp [joinAll]
  | cons hd rest ih =>
    obtain ⟨o⟩ := hd
    cases o with
    | completed => simp [joinAll, NodeHandle.join, ih]
    | panicked m => simp [joinAll, NodeHandle.join]

theorem joinAll_error {hs : List NodeHandle} {h : NodeHandle} {msg : String}
    (hm : h ∈ hs) (ho : h.outcome = ThreadOutcome.panicked msg) :
    ∃ m, joinAll hs = Except.error m := by
  induction hs with
  | nil => simp at hm
  | cons hd rest ih =>
    rcases List.mem_cons.mp hm with rfl | hmem
    · exact ⟨msg, by simp [joinAll, NodeHandle.join, ho]⟩
    · rcases hout : hd.outcome with _ | m2
      · obtain ⟨m, hrest⟩ := ih hmem
        exact ⟨m, by simp [joinAll, NodeHandle.join, hout, hrest]⟩
      · exact ⟨m2, by simp [joinAll, NodeHandle.join, hout]⟩

/-- C5: `Graph::wait` joins every registered handle, and a panic in any
registered node's thread is surfaced to the caller of `wait`: `wait` completes
normally precisely when every registered thread completed, and if any
registered handle carries a panic, `wait` itself ends in a propagated panic. -/
theorem C5_panic_surfaced_by_wait (g : Graph) :
    (Graph.wait g = Except.ok () ↔ ∀ h ∈ g.handles, h.outcome = ThreadOutcome.completed)
    ∧ (∀ (h : NodeHandle) (msg : String), h ∈ g.handles →
        h.outcome = ThreadOutcome.panicked msg → ∃ m, Graph.wait g = Except.error m) :=
  ⟨joinAll_ok_iff g.handles, fun _ _ hm ho => joinAll_error hm ho⟩

/-- C5 witness: a graph with one completed and one panicked thread; `wait`
surfaces the panic. -/
theorem C5_witness :
    ∃ m, Graph.wait ⟨[⟨.completed⟩, ⟨.panicked "boom"⟩]⟩ = Except.error m :=
  (C5_panic_surfaced_by_wait ⟨[⟨.completed⟩, ⟨.panicked "boom"⟩]⟩).2
    ⟨.panicked "boom"⟩ "boom" (by simp) rfl

/-- C10: `set_receiver` / `set_sender` are total (always succeed), set the
respective end to the given queue half — silently replacing any previously
attached end — and leave every other field of the instance unchanged. -/
theorem C10_setters_replace_and_frame {I O S : Type} (inst : NodeInstance I O S)
    (rx : SpscIn I) (tx : SpscOut O) :
    ((inst.set_receiver rx).input_rx = some rx
      ∧ (inst.set_receiver rx).output_tx = inst.output_tx
      ∧ (inst.set_receiver rx).name = inst.name
      ∧ (inst.set_receiver rx).node = inst.node
      ∧ (inst.set_receiver rx).node_st = inst.node_st
      ∧ (inst.set_receiver rx).cpu_core = inst.cpu_core
      ∧ (inst.set_receiver rx).bytes_processed_cntr = inst.bytes_processed_cntr)
    ∧ ((inst.set_sender tx).output_tx = some tx
      ∧ (inst.set_sender tx).input_rx = inst.input_rx
      ∧ (inst.set_sender tx).name = inst.name
      ∧ (inst.set_sender tx).node = inst.node
      ∧ (inst.set_sender tx).node_st = inst.node_st
      ∧ (inst.set_sender tx).cpu_core = inst.cpu_core
      ∧ (inst.set_sender tx).bytes_processed_cntr = inst.bytes_processed_cntr)
    ∧ (∀ rx0 : SpscIn I, ((inst.set_receiver rx0).set_receiver rx).input_rx = some rx)
    ∧ (∀ tx0 : SpscOut O, ((inst.set_sender tx0).set_sender tx).output_tx = some tx) :=
  ⟨⟨rfl, rfl, rfl, rfl, rfl, rfl, rfl⟩, ⟨rfl, rfl, rfl, rfl, rfl, rfl, rfl⟩,
    fun _ => rfl, fun _ => rfl⟩

/-! ### Telemetry percentage arithmetic (node.rs:215-227; C9) -/

/-- IEEE-754 single-precision values as used by the telemetry block, split into
finite values (carried exactly as rationals), NaN and the infinities.  Rounding
and signed zeros are not modelled; every operation the theorems evaluate stays
on exactly representable values (0 and 100), where `f32` and this model agree.
The special-value rules follow IEEE 754: `0.0 / 0.0` is NaN, `x / 0.0` for
finite nonzero `x` is a signed infinity. -/
inductive F32
  | finite (q : ℚ)
  | nan
  | posInf
  | negInf
deriving Repr, DecidableEq

def F32.mul : F32 → F32 → F32
  | .nan, _ => .nan
  | _, .nan => .nan
  | .finite a, .finite b => .finite (a * b)
  | .finite a, .posInf => if a = 0 then .nan else if 0 < a then .posInf else .negInf
  | .finite a, .negInf => if a = 0 then .nan else if 0 < a then .negInf else .posInf
  | .posInf, .finite b => if b = 0 then .nan else if 0 < b then .posInf else .negInf
  | .negInf, .finite b => if b = 0 then .nan else if 0 < b then .negInf else .posInf
  | .posInf, .posInf => .posInf
  | .posInf, .negInf => .negInf
  | .negInf, .posInf => .negInf
  | .negInf, .negInf => .posInf

def F32.div : F32 → F32 → F32
  | .nan, _ => .nan
  | _, .nan => .nan
  | .finite a, .finite b =>
    if b = 0 then (if a = 0 then .nan else if 0 < a then .posInf else .negInf)
    else .finite (a / b)
  | .finite _, .posInf => .finite 0
  | .finite _, .negInf => .finite 0
  | .posInf, .finite b => if 0 ≤ b then .posInf else .negInf
  | .negInf, .finite b => if 0 ≤ b then .negInf else .posInf
  | .posInf, .posInf => .nan
  | .posInf, .negInf => .nan
  | .negInf, .posInf => .nan
  | .negInf, .negInf => .nan

/-- The `as f32` cast of a nanosecond accumulator (exact here; rounding of
values above 2^24 is not modelled — the theorems evaluate it only at 0). -/
def natToF32 (n : Nat) : F32 := .finite n

/-- node.rs:216: `let total_time_ns = (recv_time_acc + proc_time_acc + send_time_acc) as f32`. -/
def total_time_ns (recvAcc procAcc sendAcc : Nat) : F32 :=
  natToF32 (recvAcc + procAcc + sendAcc)

/-- node.rs:217: `100.0 * (recv_time_acc as f32) / total_time_ns` — no guard
for a zero sum. -/
def percent_recv (recvAcc procAcc sendAcc : Nat) : F32 :=
  ((natToF32 100).mul (natToF32 recvAcc)).div (total_time_ns recvAcc procAcc sendAcc)

/-- node.rs:218: `100.0 * (proc_time_acc as f32) / total_time_ns`. -/
def percent_proc (recvAcc procAcc sendAcc : Nat) : F32 :=
  ((natToF32 100).mul (natToF32 procAcc)).div (total_time_ns recvAcc procAcc sendAcc)

/-- node.rs:219: `100.0 * (send_time_acc as f32) / total_time_ns`. -/
def percent_send (recvAcc procAcc sendAcc : Nat) : F32 :=
  ((natToF32 100).mul (natToF32 sendAcc)).div (total_time_ns recvAcc procAcc sendAcc)

/-- C9: in a report interval in which no instrumented time accumulated, the
divisor `total_time_ns` is zero and each reported percentage is NaN — not a
finite number, in particular not 0. -/
theorem C9_zero_accumulators_nan :
    percent_recv 0 0 0 = F32.nan
    ∧ percent_proc 0 0 0 = F32.nan
    ∧ percent_send 0 0 0 = F32.nan
    ∧ total_time_ns 0 0 0 = natToF32 0
    ∧ F32.nan ≠ natToF32 0 := by
  refine ⟨?_, ?_, ?_, ?_, ?_⟩ <;>
    simp [percent_recv, percent_proc, percent_send, total_time_ns, natToF32, F32.mul, F32.div]

end TpcGraphExec
